import Mathlib

/-!
Shallow embedding of `src/simpy/Stats.py`: the statistics-accumulation and
time-series-reconstruction layer (ResourceStatsMixin, Entity, Source).

Timestamps are modelled as rationals (`ℚ`), queue lengths as naturals.
Python dictionaries keyed by resource name are modelled as insertion-ordered
association lists; `OrderedDict` assignment updates the existing entry in
place (keeping its position) and appends a new key at the end.
-/

namespace Stats

/-- One recorded queue event `(env.now, len(self.queue), status)`,
appended by `ResourceStatsMixin.request` (status `"request"`) and
`ResourceStatsMixin.add_queue_check` (status `"start"`). -/
abbrev QueueEvent := ℚ × ℕ × String

/-- The per-resource ledger state of `ResourceStatsMixin`: the
`queue_size` list of recorded events. -/
structure ResourceLedger where
  queue_size : List QueueEvent
deriving Repr

/-- `ResourceStatsMixin.request`: appends `(now, queueLen, 'request')`. -/
def ResourceLedger.request (r : ResourceLedger) (now : ℚ) (queueLen : ℕ) : ResourceLedger :=
  { queue_size := r.queue_size ++ [(now, queueLen, "request")] }

/-- `ResourceStatsMixin.add_queue_check`: appends `(now, queueLen, 'start')`. -/
def ResourceLedger.add_queue_check (r : ResourceLedger) (now : ℚ) (queueLen : ℕ) : ResourceLedger :=
  { queue_size := r.queue_size ++ [(now, queueLen, "start")] }

/-- The group `d[t]` built by the first loop of `queue_size_over_time`:
all `(size, status)` pairs of events recorded at exactly time `t`,
in recording order (dict insertion groups values per key in append order). -/
def eventsAt (events : List QueueEvent) (t : ℚ) : List (ℕ × String) :=
  (events.filter (fun e => e.1 = t)).map Prod.snd

/-- The inner loop over `d[i]`: `biggest_size_of_activity` starts at 0 and
takes each size that strictly exceeds the running value. -/
def biggest_size_of_activity (l : List (ℕ × String)) : ℕ :=
  l.foldl (fun acc p => if p.1 > acc then p.1 else acc) 0

/-- One iteration of the second loop of `queue_size_over_time`: if any event
was recorded at exactly time `i` (`i in d`), the running queue size becomes
the biggest size among that tick's events, otherwise it is held. -/
def tickStep (events : List QueueEvent) (current : ℕ) (i : ℕ) : ℕ :=
  if (eventsAt events (i : ℚ)).isEmpty then current
  else biggest_size_of_activity (eventsAt events (i : ℚ))

/-- The second loop of `queue_size_over_time`, emitting one value per tick:
`qsotTicks events current i n` runs ticks `i, i+1, ..., i+n-1` starting from
running value `current`. -/
def qsotTicks (events : List QueueEvent) : ℕ → ℕ → ℕ → List ℕ
  | _current, _i, 0 => []
  | current, i, n + 1 =>
    tickStep events current i :: qsotTicks events (tickStep events current i) (i + 1) n

/-- `ResourceStatsMixin.queue_size_over_time`: one value per integer tick
`i` in `range(int(env.now))`, starting from a running queue size of 0.
(`int(x)` truncates toward zero; for the simulation's non-negative clock this
is `⌊now⌋`, and for negative `now` both sides give an empty range.) -/
def queue_size_over_time (r : ResourceLedger) (now : ℚ) : List ℕ :=
  qsotTicks r.queue_size 0 0 (Int.toNat ⌊now⌋)

/-- The per-resource tracking record
`{ 'arrival_time': …, 'start_service_time': …, 'finish_service_time': … }`. -/
structure VisitRecord where
  arrival_time : ℚ
  start_service_time : ℚ
  finish_service_time : ℚ
deriving Repr, DecidableEq

/-- `Entity._empty_resource_tracking_dict`: all three timestamps 0. -/
def empty_resource_tracking_dict : VisitRecord :=
  { arrival_time := 0, start_service_time := 0, finish_service_time := 0 }

/-- The state of `Entity` relevant to the statistics layer.  `creation_time`
is stamped by the `Source` at spawn; `disposal_time` starts out `None`;
`resources_requested` is the insertion-ordered mapping from resource name to
visit record.  (The `name`, `attributes`/priority and `env` fields play no
role in the bookkeeping semantics and are not modelled.) -/
structure Entity where
  creation_time : ℚ
  disposal_time : Option ℚ
  resources_requested : List (String × VisitRecord)
deriving Repr

/-- `OrderedDict` assignment `d[k] = v`: an existing key keeps its position
and gets the new value; a new key is appended at the end. -/
def odAssign : List (String × VisitRecord) → String → VisitRecord →
    List (String × VisitRecord)
  | [], k, v => [(k, v)]
  | (k', v') :: rest, k, v =>
    if k' = k then (k', v) :: rest else (k', v') :: odAssign rest k v

/-- In-place mutation of an existing entry, `d[k]["field"] = v`: the first
entry with key `k` has its record transformed; other entries are unchanged.
(When `k` is absent the list is returned unchanged; the callers below guard
this case, since Python would raise `KeyError`.) -/
def odModify : List (String × VisitRecord) → String → (VisitRecord → VisitRecord) →
    List (String × VisitRecord)
  | [], _, _ => []
  | (k', v') :: rest, k, f =>
    if k' = k then (k', f v') :: rest else (k', v') :: odModify rest k f

namespace Entity

/-- `Entity._add_resource_to_visited`: resets the resource's tracking record
to the empty one (this overwrites any earlier visit to the same resource). -/
def _add_resource_to_visited (e : Entity) (resource_name : String) : Entity :=
  { e with resources_requested :=
      odAssign e.resources_requested resource_name empty_resource_tracking_dict }

/-- `Entity.request_resource`: resets the record via
`_add_resource_to_visited`, then stamps `arrival_time = env.now`.  (The
Python method additionally forwards the request, with the entity's priority,
to the underlying simpy resource and returns the request handle; that
external effect is outside the ledger state.) -/
def request_resource (e : Entity) (resource_name : String) (now : ℚ) : Entity :=
  let e1 := e._add_resource_to_visited resource_name
  { e1 with resources_requested :=
      (odModify e1.resources_requested resource_name
        (fun r => { r with arrival_time := now })) }

/-- `Entity.start_service_at_resource`: stamps `start_service_time = env.now`
on the existing record; `none` models Python's `KeyError` when the resource
was never requested.  (The call to `resource.add_queue_check()` acts on the
resource ledger, modelled separately by `ResourceLedger.add_queue_check`.) -/
def start_service_at_resource (e : Entity) (resource_name : String) (now : ℚ) :
    Option Entity :=
  if (e.resources_requested.lookup resource_name).isSome then
    some { e with resources_requested :=
        (odModify e.resources_requested resource_name
          (fun r => { r with start_service_time := now })) }
  else none

/-- `Entity.release_resource`: stamps `finish_service_time = env.now`;
`none` models Python's `KeyError` when the resource was never requested.
(`resource.release(request)` is an external effect on the simpy resource.) -/
def release_resource (e : Entity) (resource_name : String) (now : ℚ) :
    Option Entity :=
  if (e.resources_requested.lookup resource_name).isSome then
    some { e with resources_requested :=
        (odModify e.resources_requested resource_name
          (fun r => { r with finish_service_time := now })) }
  else none

/-- `Entity.dispose`: unconditionally stamps `disposal_time = env.now`
(the Python method also returns the stamp). -/
def dispose (e : Entity) (now : ℚ) : Entity :=
  { e with disposal_time := some now }

/-- `Entity.is_disposed`: `disposal_time is not None`. -/
def is_disposed (e : Entity) : Bool :=
  e.disposal_time.isSome

/-- `Entity._calculate_waiting_time_for_resource`: dict lookup followed by
`start_service_time - arrival_time`; a missing key is Python's `KeyError`. -/
def _calculate_waiting_time_for_resource (e : Entity) (resource_name : String) :
    Except String ℚ :=
  match e.resources_requested.lookup resource_name with
  | some resource_stats =>
    .ok (resource_stats.start_service_time - resource_stats.arrival_time)
  | none => .error ("KeyError: " ++ resource_name)

/-- `Entity._calculate_processing_time_for_resource`: dict lookup followed by
`finish_service_time - start_service_time`. -/
def _calculate_processing_time_for_resource (e : Entity) (resource_name : String) :
    Except String ℚ :=
  match e.resources_requested.lookup resource_name with
  | some resource_stats =>
    .ok (resource_stats.finish_service_time - resource_stats.start_service_time)
  | none => .error ("KeyError: " ++ resource_name)

/-- `Entity.get_waiting_time_for_resource` (looked up by `resource.name`). -/
def get_waiting_time_for_resource (e : Entity) (resource_name : String) :
    Except String ℚ :=
  e._calculate_waiting_time_for_resource resource_name

/-- `Entity.get_processing_time_for_resource` (looked up by `resource.name`). -/
def get_processing_time_for_resource (e : Entity) (resource_name : String) :
    Except String ℚ :=
  e._calculate_processing_time_for_resource resource_name

/-- One iteration of the accumulation loop in `Entity._calculate_statistics`:
add the resource's waiting and processing time (looked up by name) to the
running `(waiting_time, processing_time)` pair; an exception propagates. -/
def statStep (e : Entity) (acc : ℚ × ℚ) (p : String × VisitRecord) :
    Except String (ℚ × ℚ) :=
  match e._calculate_waiting_time_for_resource p.1 with
  | .error msg => .error msg
  | .ok w =>
    match e._calculate_processing_time_for_resource p.1 with
    | .error msg => .error msg
    | .ok pr => .ok (acc.1 + w, acc.2 + pr)

/-- `Entity._calculate_statistics`: raises unless disposed, then folds the
per-resource waiting/processing times over `resources_requested` in
visitation order and sets `(total_time, waiting_time, processing_time)`;
here the computed triple is returned. -/
def _calculate_statistics (e : Entity) : Except String (ℚ × ℚ × ℚ) :=
  match e.disposal_time with
  | none => .error "Entity is not yet disposed. Dispose of this entity before calculating stats"
  | some d =>
    match e.resources_requested.foldlM (statStep e) ((0 : ℚ), (0 : ℚ)) with
    | .error msg => .error msg
    | .ok wp => .ok (d - e.creation_time, wp.1, wp.2)

/-- `Entity.get_total_time`: guard on `is_disposed`, recompute the
statistics, return the `total_time` component. -/
def get_total_time (e : Entity) : Except String ℚ :=
  if e.is_disposed then (e._calculate_statistics).map (fun t => t.1)
  else .error "Can't get total time: Entity has not been disposed"

/-- `Entity.get_total_waiting_time`: guard on `is_disposed`, recompute the
statistics, return the `waiting_time` component. -/
def get_total_waiting_time (e : Entity) : Except String ℚ :=
  if e.is_disposed then (e._calculate_statistics).map (fun t => t.2.1)
  else .error "Can't get total waiting time: Entity has not been disposed"

/-- `Entity.get_total_processing_time`: guard on `is_disposed`, recompute
the statistics, return the `processing_time` component. -/
def get_total_processing_time (e : Entity) : Except String ℚ :=
  if e.is_disposed then (e._calculate_statistics).map (fun t => t.2.2)
  else .error "Can't get total processing time: Entity has not been disposed"

/-- Derived combinator (not a source method): one complete visit, i.e. the
`request_resource` / `start_service_at_resource` / `release_resource`
sequence an entity performs at a resource, at times `t`, `s`, `f`. -/
def visitResource (e : Entity) (resource_name : String) (t s f : ℚ) :
    Option Entity :=
  match (e.request_resource resource_name t).start_service_at_resource resource_name s with
  | none => none
  | some e2 => e2.release_resource resource_name f

end Entity

/-- The aggregation state of `Source`: the append-only `entities` list and
the creation counter.  (The interarrival generator and `next_entity` loop
belong to the external scheduling engine.) -/
structure Source where
  entities : List Entity
  count : ℕ
deriving Repr

namespace Source

/-- `Source._get_disposed_entities`: filter `entities` by `is_disposed`,
preserving creation order. -/
def _get_disposed_entities (s : Source) : List Entity :=
  s.entities.filter (fun e => e.is_disposed)

/-- `Source.get_total_times`: map `get_total_time` over the disposed
entities (an exception in any element propagates, as in Python). -/
def get_total_times (s : Source) : Except String (List ℚ) :=
  s._get_disposed_entities.mapM Entity.get_total_time

/-- `Source.get_waiting_times`. -/
def get_waiting_times (s : Source) : Except String (List ℚ) :=
  s._get_disposed_entities.mapM Entity.get_total_waiting_time

/-- `Source.get_processing_times`. -/
def get_processing_times (s : Source) : Except String (List ℚ) :=
  s._get_disposed_entities.mapM Entity.get_total_processing_time

end Source

/-- Sum of `start_service_time - arrival_time` over the visit records, in
visitation order (the spec's `Σ(startService_i - arrival_i)`). -/
def waitSum (m : List (String × VisitRecord)) : ℚ :=
  (m.map (fun p => p.2.start_service_time - p.2.arrival_time)).sum

/-- Sum of `finish_service_time - start_service_time` over the visit
records, in visitation order. -/
def procSum (m : List (String × VisitRecord)) : ℚ :=
  (m.map (fun p => p.2.finish_service_time - p.2.start_service_time)).sum

/-! ### Lemmas about the queue-length series -/

lemma qsotTicks_length (events : List QueueEvent) :
    ∀ (n c i : ℕ), (qsotTicks events c i n).length = n := by
  intro n
  induction n with
  | zero => intro c i; rfl
  | succ n ih => intro c i; simp [qsotTicks, ih]

lemma qsotTicks_zero (events : List QueueEvent) (c i n : ℕ) (h : 0 < n) :
    (qsotTicks events c i n)[0]? = some (tickStep events c i) := by
  cases n with
  | zero => omega
  | succ n => simp [qsotTicks]

lemma qsotTicks_succ (events : List QueueEvent) :
    ∀ (k n c i : ℕ), k + 1 < n →
      (qsotTicks events c i n)[k + 1]?
        = ((qsotTicks events c i n)[k]?).map (fun v => tickStep events v (i + (k + 1))) := by
  intro k
  induction k with
  | zero =>
    intro n c i h
    match n, h with
    | n' + 1, h =>
      match n', (by omega : 0 < n') with
      | n'' + 1, _ => simp [qsotTicks]
  | succ k ih =>
    intro n c i h
    match n, h with
    | n' + 1, h =>
      have h2 := ih n' (tickStep events c i) (i + 1) (by omega)
      have harg : i + 1 + (k + 1) = i + (k + 1 + 1) := by omega
      rw [harg] at h2
      simpa [qsotTicks] using h2

lemma queue_size_over_time_length (r : ResourceLedger) (now : ℚ) :
    (queue_size_over_time r now).length = Int.toNat ⌊now⌋ :=
  qsotTicks_length r.queue_size (Int.toNat ⌊now⌋) 0 0

lemma queue_size_over_time_zero (r : ResourceLedger) (now : ℚ)
    (h : 0 < (queue_size_over_time r now).length) :
    (queue_size_over_time r now)[0]? = some (tickStep r.queue_size 0 0) :=
  qsotTicks_zero r.queue_size 0 0 _ (by simpa [queue_size_over_time_length] using h)

lemma queue_size_over_time_succ (r : ResourceLedger) (now : ℚ) (k : ℕ)
    (h : k + 1 < (queue_size_over_time r now).length) :
    (queue_size_over_time r now)[k + 1]?
      = ((queue_size_over_time r now)[k]?).map (fun v => tickStep r.queue_size v (k + 1)) := by
  have h2 := qsotTicks_succ r.queue_size k (Int.toNat ⌊now⌋) 0 0
    (by simpa [queue_size_over_time_length] using h)
  simpa [queue_size_over_time] using h2

lemma fold_biggest_bounds :
    ∀ (l : List (ℕ × String)) (a : ℕ),
      a ≤ l.foldl (fun acc p => if p.1 > acc then p.1 else acc) a
      ∧ ∀ p ∈ l, p.1 ≤ l.foldl (fun acc p => if p.1 > acc then p.1 else acc) a := by
  intro l
  induction l with
  | nil => intro a; exact ⟨le_refl a, by simp⟩
  | cons q l ih =>
    intro a
    simp only [List.foldl_cons, List.mem_cons]
    obtain ⟨ha, hmem⟩ := ih (if q.1 > a then q.1 else a)
    refine ⟨le_trans (by split <;> omega) ha, ?_⟩
    rintro p (rfl | hp)
    · exact le_trans (by split <;> omega) ha
    · exact hmem p hp

lemma fold_biggest_mem :
    ∀ (l : List (ℕ × String)) (a : ℕ),
      l.foldl (fun acc p => if p.1 > acc then p.1 else acc) a = a
      ∨ l.foldl (fun acc p => if p.1 > acc then p.1 else acc) a ∈ l.map Prod.fst := by
  intro l
  induction l with
  | nil => intro a; left; rfl
  | cons q l ih =>
    intro a
    simp only [List.foldl_cons, List.map_cons, List.mem_cons]
    rcases ih (if q.1 > a then q.1 else a) with h | h
    · by_cases hq : q.1 > a
      · right; left; rw [h, if_pos hq]
      · left; rw [h, if_neg hq]
    · right; right; exact h

/-- For a non-empty tick group, `biggest_size_of_activity` is the maximum
observed size: it is one of the sizes and bounds them all. -/
lemma biggest_size_spec (l : List (ℕ × String)) (hl : l ≠ []) :
    biggest_size_of_activity l ∈ l.map Prod.fst
    ∧ ∀ s ∈ l.map Prod.fst, s ≤ biggest_size_of_activity l := by
  have hb := fold_biggest_bounds l 0
  have hm := fold_biggest_mem l 0
  simp only [biggest_size_of_activity]
  constructor
  · rcases hm with h | h
    · match l, hl with
      | q :: l', _ =>
        have hq : q.1 ≤ 0 := by
          have h2 := hb.2 q (List.mem_cons_self q l')
          rw [h] at h2
          exact h2
        have hq0 : (0 : ℕ) = q.1 := by omega
        rw [h, List.map_cons, hq0]
        exact List.mem_cons_self q.1 (l'.map Prod.fst)
    · exact h
  · intro s hs
    obtain ⟨p, hp, rfl⟩ := List.mem_map.mp hs
    exact hb.2 p hp

lemma tickStep_of_empty (events : List QueueEvent) (c i : ℕ)
    (h : eventsAt events (i : ℚ) = []) : tickStep events c i = c := by
  simp [tickStep, h]

lemma tickStep_of_ne (events : List QueueEvent) (c i : ℕ)
    (h : eventsAt events (i : ℚ) ≠ []) :
    tickStep events c i = biggest_size_of_activity (eventsAt events (i : ℚ)) := by
  simp [tickStep, List.isEmpty_iff, h]

/-- A tick with no event holds the previous tick's value. -/
lemma queue_size_over_time_hold (r : ResourceLedger) (now : ℚ) (k : ℕ)
    (hk : k + 1 < (queue_size_over_time r now).length)
    (h : eventsAt r.queue_size ((k + 1 : ℕ) : ℚ) = []) :
    (queue_size_over_time r now)[k + 1]? = (queue_size_over_time r now)[k]? := by
  rw [queue_size_over_time_succ r now k hk]
  rw [List.getElem?_eq_getElem (by omega)]
  simp [tickStep_of_empty _ _ _ h]

/-- Before the first tick with an event, the series is 0. -/
lemma queue_size_over_time_start (r : ResourceLedger) (now : ℚ) :
    ∀ k, k < (queue_size_over_time r now).length →
      (∀ j : ℕ, j ≤ k → eventsAt r.queue_size (j : ℚ) = []) →
      (queue_size_over_time r now)[k]? = some 0 := by
  intro k
  induction k with
  | zero =>
    intro hk hj
    rw [queue_size_over_time_zero r now hk, tickStep_of_empty _ _ _ (hj 0 (le_refl 0))]
  | succ k ih =>
    intro hk hj
    rw [queue_size_over_time_hold r now k hk (hj (k + 1) (le_refl (k + 1)))]
    exact ih (by omega) (fun j hjk => hj j (by omega))

/-- A tick at which at least one event was recorded takes the maximum
observed size of that tick's group. -/
lemma queue_size_over_time_event (r : ResourceLedger) (now : ℚ) (k : ℕ)
    (hk : k < (queue_size_over_time r now).length)
    (h : eventsAt r.queue_size ((k : ℕ) : ℚ) ≠ []) :
    (queue_size_over_time r now)[k]?
      = some (biggest_size_of_activity (eventsAt r.queue_size ((k : ℕ) : ℚ))) := by
  cases k with
  | zero =>
    rw [queue_size_over_time_zero r now hk, tickStep_of_ne _ _ _ h]
  | succ k =>
    rw [queue_size_over_time_succ r now k hk, List.getElem?_eq_getElem (by omega)]
    simp [tickStep_of_ne _ _ _ h]

lemma eventsAt_cons_ne (t : ℚ) (sz : ℕ) (st : String) (events : List QueueEvent)
    (u : ℚ) (h : t ≠ u) :
    eventsAt ((t, sz, st) :: events) u = eventsAt events u := by
  simp [eventsAt, List.filter_cons, h]

lemma qsotTicks_cons_ne (t : ℚ) (sz : ℕ) (st : String) (events : List QueueEvent)
    (hint : ∀ k : ℕ, t ≠ (k : ℚ)) :
    ∀ (n c i : ℕ), qsotTicks ((t, sz, st) :: events) c i n = qsotTicks events c i n := by
  intro n
  induction n with
  | zero => intro c i; rfl
  | succ n ih =>
    intro c i
    have hstep : ∀ c', tickStep ((t, sz, st) :: events) c' i = tickStep events c' i := by
      intro c'
      rw [tickStep, tickStep, eventsAt_cons_ne t sz st events (i : ℚ) (hint i)]
    simp only [qsotTicks, hstep, ih]

/-! ### Lemmas about the ordered visit mapping -/

lemma lookup_cons_ne (a k : String) (b : VisitRecord)
    (m : List (String × VisitRecord)) (hne : k ≠ a) :
    ((a, b) :: m).lookup k = m.lookup k := by
  rw [List.lookup_cons]
  rw [beq_eq_false_iff_ne.mpr hne]

lemma lookup_cons_eq (a : String) (b : VisitRecord)
    (m : List (String × VisitRecord)) :
    ((a, b) :: m).lookup a = some b := by
  rw [List.lookup_cons]
  rw [beq_self_eq_true a]

lemma lookup_isSome_iff_mem (m : List (String × VisitRecord)) (k : String) :
    (m.lookup k).isSome ↔ k ∈ m.map Prod.fst := by
  induction m with
  | nil => simp
  | cons q m ih =>
    obtain ⟨a, b⟩ := q
    by_cases hq : k = a
    · subst hq
      rw [lookup_cons_eq]
      simp
    · rw [lookup_cons_ne a k b m hq, List.map_cons, ih]
      simp [List.mem_cons, hq]

lemma lookup_eq_of_nodup (m : List (String × VisitRecord))
    (hnd : (m.map Prod.fst).Nodup) (p : String × VisitRecord) (hp : p ∈ m) :
    m.lookup p.1 = some p.2 := by
  induction m with
  | nil => cases hp
  | cons q m ih =>
    obtain ⟨a, b⟩ := q
    rw [List.map_cons, List.nodup_cons] at hnd
    rcases List.mem_cons.mp hp with rfl | hp'
    · exact lookup_cons_eq a b m
    · have hne : p.1 ≠ a := by
        intro h
        exact hnd.1 (h ▸ List.mem_map.mpr ⟨p, hp', rfl⟩)
      rw [lookup_cons_ne a p.1 b m hne]
      exact ih hnd.2 hp'

lemma odAssign_lookup (m : List (String × VisitRecord)) (k : String) (v : VisitRecord) :
    (odAssign m k v).lookup k = some v := by
  induction m with
  | nil => exact lookup_cons_eq k v []
  | cons q m ih =>
    obtain ⟨a, b⟩ := q
    by_cases hq : a = k
    · subst hq
      rw [show odAssign ((a, b) :: m) a v = (a, v) :: m from if_pos rfl]
      exact lookup_cons_eq a v m
    · rw [show odAssign ((a, b) :: m) k v = (a, b) :: odAssign m k v from if_neg hq]
      rw [lookup_cons_ne a k b _ (fun h => hq h.symm)]
      exact ih

lemma odAssign_keys_of_mem (m : List (String × VisitRecord)) (k : String)
    (v : VisitRecord) (h : k ∈ m.map Prod.fst) :
    (odAssign m k v).map Prod.fst = m.map Prod.fst := by
  induction m with
  | nil => cases h
  | cons q m ih =>
    obtain ⟨a, b⟩ := q
    by_cases hq : a = k
    · rw [show odAssign ((a, b) :: m) k v = (a, v) :: m from if_pos hq]
      simp
    · rw [show odAssign ((a, b) :: m) k v = (a, b) :: odAssign m k v from if_neg hq]
      have h' : k ∈ m.map Prod.fst := by
        rw [List.map_cons] at h
        rcases List.mem_cons.mp h with h0 | h0
        · exact absurd h0.symm hq
        · exact h0
      simp [ih h']

lemma odAssign_keys_of_not_mem (m : List (String × VisitRecord)) (k : String)
    (v : VisitRecord) (h : k ∉ m.map Prod.fst) :
    (odAssign m k v).map Prod.fst = m.map Prod.fst ++ [k] := by
  induction m with
  | nil => simp [odAssign]
  | cons q m ih =>
    obtain ⟨a, b⟩ := q
    have hq : ¬ (a = k) := by
      intro h0
      exact h (by rw [List.map_cons, h0]; exact List.mem_cons_self k _)
    have h' : k ∉ m.map Prod.fst := by
      intro h0
      exact h (by rw [List.map_cons]; exact List.mem_cons_of_mem a h0)
    rw [show odAssign ((a, b) :: m) k v = (a, b) :: odAssign m k v from if_neg hq]
    simp [ih h']

lemma odAssign_nodup (m : List (String × VisitRecord)) (k : String) (v : VisitRecord)
    (hnd : (m.map Prod.fst).Nodup) : ((odAssign m k v).map Prod.fst).Nodup := by
  by_cases h : k ∈ m.map Prod.fst
  · rw [odAssign_keys_of_mem m k v h]; exact hnd
  · rw [odAssign_keys_of_not_mem m k v h]
    rw [List.nodup_append]
    refine ⟨hnd, List.nodup_singleton k, fun x hx hk => ?_⟩
    rw [List.mem_singleton] at hk
    exact h (hk ▸ hx)

lemma odModify_keys (m : List (String × VisitRecord)) (k : String)
    (f : VisitRecord → VisitRecord) : (odModify m k f).map Prod.fst = m.map Prod.fst := by
  induction m with
  | nil => simp [odModify]
  | cons q m ih =>
    obtain ⟨a, b⟩ := q
    by_cases hq : a = k
    · rw [show odModify ((a, b) :: m) k f = (a, f b) :: m from if_pos hq]
      simp
    · rw [show odModify ((a, b) :: m) k f = (a, b) :: odModify m k f from if_neg hq]
      simp [ih]

lemma odModify_lookup (m : List (String × VisitRecord)) (k : String)
    (f : VisitRecord → VisitRecord) (v : VisitRecord) (h : m.lookup k = some v) :
    (odModify m k f).lookup k = some (f v) := by
  induction m with
  | nil => simp at h
  | cons q m ih =>
    obtain ⟨a, b⟩ := q
    by_cases hq : a = k
    · subst hq
      rw [lookup_cons_eq] at h
      rw [show odModify ((a, b) :: m) a f = (a, f b) :: m from if_pos rfl]
      rw [lookup_cons_eq, Option.some_inj.mp h]
    · have hne : k ≠ a := fun h0 => hq h0.symm
      rw [lookup_cons_ne a k b m hne] at h
      rw [show odModify ((a, b) :: m) k f = (a, b) :: odModify m k f from if_neg hq]
      rw [lookup_cons_ne a k b _ hne]
      exact ih h

/-! ### Lemmas about entity statistics -/

lemma except_bind_ok {α β : Type} (a : α) (g : α → Except String β) :
    (Except.ok a >>= g) = g a := rfl

namespace Entity

lemma statStep_eq (e : Entity) (acc : ℚ × ℚ) (p : String × VisitRecord)
    (r : VisitRecord) (h : e.resources_requested.lookup p.1 = some r) :
    statStep e acc p
      = .ok (acc.1 + (r.start_service_time - r.arrival_time),
          acc.2 + (r.finish_service_time - r.start_service_time)) := by
  simp [statStep, _calculate_waiting_time_for_resource,
    _calculate_processing_time_for_resource, h]

lemma foldlM_statStep_ok (e : Entity) :
    ∀ (sub : List (String × VisitRecord)) (acc : ℚ × ℚ),
      (∀ p ∈ sub, (e.resources_requested.lookup p.1).isSome) →
      ∃ v, sub.foldlM (statStep e) acc = Except.ok v := by
  intro sub
  induction sub with
  | nil => intro acc _; exact ⟨acc, rfl⟩
  | cons p sub ih =>
    intro acc h
    obtain ⟨r, hr⟩ := Option.isSome_iff_exists.mp (h p (List.mem_cons_self p sub))
    rw [List.foldlM_cons, statStep_eq e acc p r hr, except_bind_ok]
    exact ih _ (fun q hq => h q (List.mem_cons_of_mem p hq))

lemma foldlM_statStep_eq (e : Entity) :
    ∀ (sub : List (String × VisitRecord)) (acc : ℚ × ℚ),
      (∀ p ∈ sub, e.resources_requested.lookup p.1 = some p.2) →
      sub.foldlM (statStep e) acc = Except.ok (acc.1 + waitSum sub, acc.2 + procSum sub) := by
  intro sub
  induction sub with
  | nil =>
    intro acc _
    simp only [List.foldlM_nil, waitSum, procSum, List.map_nil, List.sum_nil, add_zero]
    rfl
  | cons p sub ih =>
    intro acc h
    rw [List.foldlM_cons, statStep_eq e acc p p.2 (h p (List.mem_cons_self p sub)),
      except_bind_ok, ih _ (fun q hq => h q (List.mem_cons_of_mem p hq))]
    have hw : acc.1 + (p.2.start_service_time - p.2.arrival_time) + waitSum sub
        = acc.1 + waitSum (p :: sub) := by
      rw [waitSum, waitSum, List.map_cons, List.sum_cons]; ring
    have hpr : acc.2 + (p.2.finish_service_time - p.2.start_service_time) + procSum sub
        = acc.2 + procSum (p :: sub) := by
      rw [procSum, procSum, List.map_cons, List.sum_cons]; ring
    rw [hw, hpr]

lemma _calculate_statistics_ok (e : Entity) (d : ℚ) (hd : e.disposal_time = some d) :
    ∃ w pr, e._calculate_statistics = .ok (d - e.creation_time, w, pr) := by
  obtain ⟨v, hv⟩ := foldlM_statStep_ok e e.resources_requested ((0 : ℚ), (0 : ℚ))
    (fun p hp => (lookup_isSome_iff_mem _ _).mpr (List.mem_map.mpr ⟨p, hp, rfl⟩))
  refine ⟨v.1, v.2, ?_⟩
  simp only [_calculate_statistics, hd]
  rw [hv]

lemma _calculate_statistics_spec (e : Entity) (d : ℚ) (hd : e.disposal_time = some d)
    (hnd : (e.resources_requested.map Prod.fst).Nodup) :
    e._calculate_statistics
      = .ok (d - e.creation_time, waitSum e.resources_requested,
          procSum e.resources_requested) := by
  have hfold := foldlM_statStep_eq e e.resources_requested ((0 : ℚ), (0 : ℚ))
    (fun p hp => lookup_eq_of_nodup _ hnd p hp)
  simp only [_calculate_statistics, hd]
  rw [hfold]
  simp

lemma get_total_time_disposed (e : Entity) (d : ℚ) (hd : e.disposal_time = some d) :
    e.get_total_time = .ok (d - e.creation_time) := by
  obtain ⟨w, pr, hs⟩ := _calculate_statistics_ok e d hd
  simp [get_total_time, is_disposed, hd, hs, Except.map]

lemma get_total_waiting_time_ok (e : Entity) (d : ℚ) (hd : e.disposal_time = some d) :
    ∃ v, e.get_total_waiting_time = .ok v := by
  obtain ⟨w, pr, hs⟩ := _calculate_statistics_ok e d hd
  exact ⟨w, by simp [get_total_waiting_time, is_disposed, hd, hs, Except.map]⟩

lemma get_total_processing_time_ok (e : Entity) (d : ℚ) (hd : e.disposal_time = some d) :
    ∃ v, e.get_total_processing_time = .ok v := by
  obtain ⟨w, pr, hs⟩ := _calculate_statistics_ok e d hd
  exact ⟨pr, by simp [get_total_processing_time, is_disposed, hd, hs, Except.map]⟩

lemma get_total_waiting_time_spec (e : Entity) (d : ℚ) (hd : e.disposal_time = some d)
    (hnd : (e.resources_requested.map Prod.fst).Nodup) :
    e.get_total_waiting_time = .ok (waitSum e.resources_requested) := by
  simp [get_total_waiting_time, is_disposed, hd,
    _calculate_statistics_spec e d hd hnd, Except.map]

lemma get_total_processing_time_spec (e : Entity) (d : ℚ) (hd : e.disposal_time = some d)
    (hnd : (e.resources_requested.map Prod.fst).Nodup) :
    e.get_total_processing_time = .ok (procSum e.resources_requested) := by
  simp [get_total_processing_time, is_disposed, hd,
    _calculate_statistics_spec e d hd hnd, Except.map]

lemma getters_not_disposed (e : Entity) (h : e.disposal_time = none) :
    e.get_total_time = .error "Can't get total time: Entity has not been disposed"
    ∧ e.get_total_waiting_time
        = .error "Can't get total waiting time: Entity has not been disposed"
    ∧ e.get_total_processing_time
        = .error "Can't get total processing time: Entity has not been disposed" := by
  refine ⟨?_, ?_, ?_⟩ <;>
    simp [get_total_time, get_total_waiting_time, get_total_processing_time,
      is_disposed, h]

/-! ### Lemmas about resource visits -/

lemma request_resource_lookup (e : Entity) (name : String) (t : ℚ) :
    (e.request_resource name t).resources_requested.lookup name
      = some { arrival_time := t, start_service_time := 0, finish_service_time := 0 } := by
  have h1 := odAssign_lookup e.resources_requested name empty_resource_tracking_dict
  have h2 := odModify_lookup (odAssign e.resources_requested name empty_resource_tracking_dict)
    name (fun r => { r with arrival_time := t }) _ h1
  simpa [request_resource, _add_resource_to_visited, empty_resource_tracking_dict] using h2

lemma request_resource_keys (e : Entity) (name : String) (t : ℚ) :
    (e.request_resource name t).resources_requested.map Prod.fst
      = (odAssign e.resources_requested name empty_resource_tracking_dict).map Prod.fst := by
  simp [request_resource, _add_resource_to_visited, odModify_keys]

lemma start_service_eq (e : Entity) (name : String) (s : ℚ) (r : VisitRecord)
    (h : e.resources_requested.lookup name = some r) :
    e.start_service_at_resource name s
      = some { e with resources_requested :=
          (odModify e.resources_requested name
            (fun x => { x with start_service_time := s })) } := by
  simp [start_service_at_resource, h]

lemma release_eq (e : Entity) (name : String) (f : ℚ) (r : VisitRecord)
    (h : e.resources_requested.lookup name = some r) :
    e.release_resource name f
      = some { e with resources_requested :=
          (odModify e.resources_requested name
            (fun x => { x with finish_service_time := f })) } := by
  simp [release_resource, h]

/-- One full visit at times `t ≤ s ≤ f` succeeds and produces an entity
whose record for the resource is exactly `(t, s, f)`, whose key sequence is
that of the reset step, and whose other fields are untouched. -/
lemma visitResource_spec (e : Entity) (name : String) (t s f : ℚ) :
    ∃ e', e.visitResource name t s f = some e'
      ∧ e'.creation_time = e.creation_time
      ∧ e'.disposal_time = e.disposal_time
      ∧ e'.resources_requested.lookup name
          = some { arrival_time := t, start_service_time := s, finish_service_time := f }
      ∧ e'.resources_requested.map Prod.fst
          = (odAssign e.resources_requested name empty_resource_tracking_dict).map Prod.fst := by
  have h1 := request_resource_lookup e name t
  have hstart := start_service_eq (e.request_resource name t) name s _ h1
  have h2 : (odModify (e.request_resource name t).resources_requested name
      (fun x => { x with start_service_time := s })).lookup name
      = some { arrival_time := t, start_service_time := s, finish_service_time := 0 } := by
    simpa using odModify_lookup _ name (fun x => { x with start_service_time := s }) _ h1
  have hrel := release_eq
    { e.request_resource name t with resources_requested :=
        (odModify (e.request_resource name t).resources_requested name
          (fun x => { x with start_service_time := s })) } name f _ h2
  have h3 : (odModify (odModify (e.request_resource name t).resources_requested name
      (fun x => { x with start_service_time := s })) name
      (fun x => { x with finish_service_time := f })).lookup name
      = some { arrival_time := t, start_service_time := s, finish_service_time := f } := by
    simpa using odModify_lookup _ name (fun x => { x with finish_service_time := f }) _ h2
  refine ⟨{ e.request_resource name t with resources_requested :=
      (odModify (odModify (e.request_resource name t).resources_requested name
        (fun x => { x with start_service_time := s })) name
        (fun x => { x with finish_service_time := f })) }, ?_, rfl, rfl, h3, ?_⟩
  · simp only [visitResource, hstart]
    exact hrel
  · dsimp only
    rw [odModify_keys, odModify_keys]
    exact request_resource_keys e name t

end Entity

lemma eq_singleton_of_keys (m : List (String × VisitRecord)) (k : String) (v : VisitRecord)
    (hk : m.map Prod.fst = [k]) (hl : m.lookup k = some v) : m = [(k, v)] := by
  cases m with
  | nil => simp at hk
  | cons p m' =>
    cases m' with
    | cons q m'' => simp at hk
    | nil =>
      obtain ⟨a, b⟩ := p
      simp at hk
      subst hk
      rw [lookup_cons_eq] at hl
      rw [Option.some_inj.mp hl]

/-! ### Lemmas about source aggregation -/

lemma mapM_total_times (es : List Entity) (h : ∀ e ∈ es, e.disposal_time.isSome) :
    es.mapM Entity.get_total_time
      = .ok (es.map (fun e => e.disposal_time.getD 0 - e.creation_time)) := by
  induction es with
  | nil => rfl
  | cons e es ih =>
    obtain ⟨d, hd⟩ := Option.isSome_iff_exists.mp (h e (List.mem_cons_self e es))
    rw [List.mapM_cons, Entity.get_total_time_disposed e d hd, except_bind_ok,
      ih (fun q hq => h q (List.mem_cons_of_mem e hq)), except_bind_ok]
    simp [hd]
    rfl

lemma mapM_ok_of_ok (es : List Entity) (g : Entity → Except String ℚ)
    (h : ∀ e ∈ es, ∃ v, g e = .ok v) :
    ∃ l, es.mapM g = .ok l ∧ l.length = es.length := by
  induction es with
  | nil => exact ⟨[], rfl, rfl⟩
  | cons e es ih =>
    obtain ⟨v, hv⟩ := h e (List.mem_cons_self e es)
    obtain ⟨l, hl, hlen⟩ := ih (fun q hq => h q (List.mem_cons_of_mem e hq))
    refine ⟨v :: l, ?_, by simp [hlen]⟩
    rw [List.mapM_cons, hv, except_bind_ok, hl, except_bind_ok]
    rfl

end Stats

open Stats

/-- C1: at any integer tick `i` of the reconstructed series at which one or
more queue events were recorded with timestamp exactly `i`, the series value
is the maximum observed queue length among that timestamp's events. -/
theorem claim1_tick_value_is_max (r : ResourceLedger) (now : ℚ) (i : ℕ)
    (hi : i < (queue_size_over_time r now).length)
    (hev : eventsAt r.queue_size (i : ℚ) ≠ []) :
    ∃ v, (queue_size_over_time r now)[i]? = some v
      ∧ v ∈ (eventsAt r.queue_size (i : ℚ)).map Prod.fst
      ∧ ∀ s ∈ (eventsAt r.queue_size (i : ℚ)).map Prod.fst, s ≤ v := by
  obtain ⟨hmem, hmax⟩ := biggest_size_spec (eventsAt r.queue_size (i : ℚ)) hev
  exact ⟨biggest_size_of_activity (eventsAt r.queue_size (i : ℚ)),
    queue_size_over_time_event r now i hi hev, hmem, hmax⟩

/-- C1 witness: the spec's tie-break scenario — events `(5, 2, "request")`
and `(5, 3, "start")` both at time 5, current time 6: the value at tick 5 is
the maximum 3 (and in full, the series is `[0, 0, 0, 0, 0, 3]`). -/
theorem claim1_tick_value_is_max_witness :
    (5 < (queue_size_over_time ⟨[((5 : ℚ), 2, "request"), ((5 : ℚ), 3, "start")]⟩ 6).length
      ∧ eventsAt [((5 : ℚ), 2, "request"), ((5 : ℚ), 3, "start")] ((5 : ℕ) : ℚ) ≠ [])
    ∧ (∃ v, (queue_size_over_time ⟨[((5 : ℚ), 2, "request"), ((5 : ℚ), 3, "start")]⟩ 6)[5]? = some v
        ∧ v ∈ (eventsAt [((5 : ℚ), 2, "request"), ((5 : ℚ), 3, "start")] ((5 : ℕ) : ℚ)).map Prod.fst
        ∧ ∀ s ∈ (eventsAt [((5 : ℚ), 2, "request"), ((5 : ℚ), 3, "start")] ((5 : ℕ) : ℚ)).map Prod.fst, s ≤ v)
    ∧ queue_size_over_time ⟨[((5 : ℚ), 2, "request"), ((5 : ℚ), 3, "start")]⟩ 6
        = [0, 0, 0, 0, 0, 3] :=
  ⟨⟨by decide, by decide⟩,
    claim1_tick_value_is_max ⟨[((5 : ℚ), 2, "request"), ((5 : ℚ), 3, "start")]⟩ 6 5
      (by decide) (by decide),
    by decide⟩

/-- C2: for a non-negative current time, `queue_size_over_time` returns a
series of length exactly `⌊now⌋` of (non-negative) naturals; a tick with no
event recorded exactly at it holds the previous tick's value, and before any
event has occurred the value is 0. -/
theorem claim2_series_shape (r : ResourceLedger) (now : ℚ) (hnow : 0 ≤ now) :
    ((queue_size_over_time r now).length : ℤ) = ⌊now⌋
    ∧ (∀ v ∈ queue_size_over_time r now, 0 ≤ (v : ℤ))
    ∧ (∀ k, k + 1 < (queue_size_over_time r now).length →
        eventsAt r.queue_size ((k + 1 : ℕ) : ℚ) = [] →
        (queue_size_over_time r now)[k + 1]? = (queue_size_over_time r now)[k]?)
    ∧ (∀ k, k < (queue_size_over_time r now).length →
        (∀ j : ℕ, j ≤ k → eventsAt r.queue_size (j : ℚ) = []) →
        (queue_size_over_time r now)[k]? = some 0) := by
  refine ⟨?_, ?_, ?_, queue_size_over_time_start r now⟩
  · rw [queue_size_over_time_length r now,
      Int.toNat_of_nonneg (Int.floor_nonneg.mpr hnow)]
  · intro v _
    exact Int.ofNat_nonneg v
  · intro k hk hev
    exact queue_size_over_time_hold r now k hk hev

/-- C2 witness: the tie-break ledger at current time 13/2 gives a series of
length `⌊13/2⌋ = 6`; tick 3 (eventless) holds tick 2's value; ticks up to 4
are 0. -/
theorem claim2_series_shape_witness :
    (0 : ℚ) ≤ mkRat 13 2
    ∧ (((queue_size_over_time ⟨[((5 : ℚ), 2, "request"), ((5 : ℚ), 3, "start")]⟩ (mkRat 13 2)).length : ℤ)
        = ⌊(mkRat 13 2 : ℚ)⌋
      ∧ (∀ v ∈ queue_size_over_time ⟨[((5 : ℚ), 2, "request"), ((5 : ℚ), 3, "start")]⟩ (mkRat 13 2), 0 ≤ (v : ℤ))
      ∧ (∀ k, k + 1 < (queue_size_over_time ⟨[((5 : ℚ), 2, "request"), ((5 : ℚ), 3, "start")]⟩ (mkRat 13 2)).length →
          eventsAt [((5 : ℚ), 2, "request"), ((5 : ℚ), 3, "start")] ((k + 1 : ℕ) : ℚ) = [] →
          (queue_size_over_time ⟨[((5 : ℚ), 2, "request"), ((5 : ℚ), 3, "start")]⟩ (mkRat 13 2))[k + 1]?
            = (queue_size_over_time ⟨[((5 : ℚ), 2, "request"), ((5 : ℚ), 3, "start")]⟩ (mkRat 13 2))[k]?)
      ∧ (∀ k, k < (queue_size_over_time ⟨[((5 : ℚ), 2, "request"), ((5 : ℚ), 3, "start")]⟩ (mkRat 13 2)).length →
          (∀ j : ℕ, j ≤ k → eventsAt [((5 : ℚ), 2, "request"), ((5 : ℚ), 3, "start")] (j : ℚ) = []) →
          (queue_size_over_time ⟨[((5 : ℚ), 2, "request"), ((5 : ℚ), 3, "start")]⟩ (mkRat 13 2))[k]? = some 0)) :=
  ⟨by decide,
    claim2_series_shape ⟨[((5 : ℚ), 2, "request"), ((5 : ℚ), 3, "start")]⟩ (mkRat 13 2)
      (by decide)⟩

/-- C7: an event recorded at a fractional timestamp strictly between two
integers affects no tick of the reconstructed series. -/
theorem claim7_fractional_event_invisible (r : ResourceLedger) (now : ℚ)
    (t : ℚ) (sz : ℕ) (st : String) (n : ℤ)
    (h1 : (n : ℚ) < t) (h2 : t < (n : ℚ) + 1) :
    queue_size_over_time ⟨(t, sz, st) :: r.queue_size⟩ now
      = queue_size_over_time r now := by
  have hint : ∀ k : ℕ, t ≠ (k : ℚ) := by
    intro k hk
    rw [hk] at h1 h2
    have g1 : (n : ℚ) < ((k : ℤ) : ℚ) := by push_cast; exact_mod_cast h1
    have g2 : ((k : ℤ) : ℚ) < ((n + 1 : ℤ) : ℚ) := by push_cast; exact_mod_cast h2
    have g1' : n < (k : ℤ) := by exact_mod_cast g1
    have g2' : (k : ℤ) < n + 1 := by exact_mod_cast g2
    omega
  rw [queue_size_over_time, queue_size_over_time]
  exact qsotTicks_cons_ne t sz st r.queue_size hint _ 0 0

/-- C7 witness: an event at time 11/2 (strictly between 5 and 6) leaves the
series of the tie-break ledger unchanged. -/
theorem claim7_fractional_event_invisible_witness :
    ((5 : ℚ) < mkRat 11 2 ∧ mkRat 11 2 < (5 : ℚ) + 1)
    ∧ queue_size_over_time ⟨(mkRat 11 2, 9, "request") :: [((5 : ℚ), 2, "request"), ((5 : ℚ), 3, "start")]⟩ 6
        = queue_size_over_time ⟨[((5 : ℚ), 2, "request"), ((5 : ℚ), 3, "start")]⟩ 6 :=
  ⟨⟨by norm_num [Rat.mkRat_eq_div], by norm_num [Rat.mkRat_eq_div]⟩,
    claim7_fractional_event_invisible ⟨[((5 : ℚ), 2, "request"), ((5 : ℚ), 3, "start")]⟩ 6
      (mkRat 11 2) 9 "request" 5 (by norm_num [Rat.mkRat_eq_div])
      (by norm_num [Rat.mkRat_eq_div])⟩

/-- C3: for every disposed entity, total time is exactly
`disposal_time - creation_time`, total waiting time is the sum over the
visited resources of `start_service_time - arrival_time`, and total
processing time is the sum of `finish_service_time - start_service_time`
(resource names are distinct, as they are keys of a Python dict). -/
theorem claim3_disposed_statistics (e : Entity) (d : ℚ)
    (hd : e.disposal_time = some d)
    (hnd : (e.resources_requested.map Prod.fst).Nodup) :
    e.get_total_time = .ok (d - e.creation_time)
    ∧ e.get_total_waiting_time = .ok (waitSum e.resources_requested)
    ∧ e.get_total_processing_time = .ok (procSum e.resources_requested) :=
  ⟨Entity.get_total_time_disposed e d hd,
    Entity.get_total_waiting_time_spec e d hd hnd,
    Entity.get_total_processing_time_spec e d hd hnd⟩

/-- C3 witness: the spec's scenario — created at 0, arrival 0, service start
2, finish 5, disposed at 5: total 5, waiting 2, processing 3. -/
theorem claim3_disposed_statistics_witness :
    ((⟨0, some 5, [("Resource A", ⟨0, 2, 5⟩)]⟩ : Entity).disposal_time = some 5
      ∧ (((⟨0, some 5, [("Resource A", ⟨0, 2, 5⟩)]⟩ : Entity).resources_requested.map Prod.fst).Nodup))
    ∧ (⟨0, some 5, [("Resource A", ⟨0, 2, 5⟩)]⟩ : Entity).get_total_time = .ok 5
    ∧ (⟨0, some 5, [("Resource A", ⟨0, 2, 5⟩)]⟩ : Entity).get_total_waiting_time = .ok 2
    ∧ (⟨0, some 5, [("Resource A", ⟨0, 2, 5⟩)]⟩ : Entity).get_total_processing_time = .ok 3 := by
  have h := claim3_disposed_statistics ⟨0, some 5, [("Resource A", ⟨0, 2, 5⟩)]⟩ 5 rfl
    (by simp)
  refine ⟨⟨rfl, by simp⟩, ?_, ?_, ?_⟩
  · rw [h.1]; norm_num
  · rw [h.2.1]; norm_num [waitSum]
  · rw [h.2.2]; norm_num [procSum]

/-- C4: each of the three total-statistics getters returns the documented
"has not been disposed" error when `disposal_time` is unset, and returns a
value (never raises) when `disposal_time` is set. -/
theorem claim4_disposal_guard (e : Entity) :
    (e.disposal_time = none →
      e.get_total_time = .error "Can't get total time: Entity has not been disposed"
      ∧ e.get_total_waiting_time
          = .error "Can't get total waiting time: Entity has not been disposed"
      ∧ e.get_total_processing_time
          = .error "Can't get total processing time: Entity has not been disposed")
    ∧ (∀ d, e.disposal_time = some d →
      (∃ v, e.get_total_time = .ok v)
      ∧ (∃ v, e.get_total_waiting_time = .ok v)
      ∧ (∃ v, e.get_total_processing_time = .ok v)) := by
  constructor
  · exact fun h => Entity.getters_not_disposed e h
  · intro d hd
    exact ⟨⟨_, Entity.get_total_time_disposed e d hd⟩,
      Entity.get_total_waiting_time_ok e d hd,
      Entity.get_total_processing_time_ok e d hd⟩

/-- C4 witness: the un-disposed entity errors; the disposed one returns. -/
theorem claim4_disposal_guard_witness :
    Entity.get_total_time ⟨0, none, []⟩
      = .error "Can't get total time: Entity has not been disposed"
    ∧ ∃ v, Entity.get_total_time ⟨0, some 5, []⟩ = .ok v :=
  ⟨((claim4_disposal_guard ⟨0, none, []⟩).1 rfl).1,
    ((claim4_disposal_guard ⟨0, some 5, []⟩).2 5 rfl).1⟩

/-- C5 counterexample: the statistics are NOT cached.  A disposed entity
with one visit (arrival 0, start 2, finish 5) reports waiting time 2; after
its visit record is modified (start time changed to 3) between two getter
calls, the second call reports 3, not the earlier value: every getter call
recomputes from the current ledger state. -/
theorem claim5_not_cached_counterexample :
    Entity.get_total_waiting_time ⟨0, some 5, [("A", ⟨0, 2, 5⟩)]⟩ = .ok 2
    ∧ Entity.get_total_waiting_time
        ⟨0, some 5, (odModify [("A", ⟨0, 2, 5⟩)] "A"
          (fun r => { r with start_service_time := 3 }))⟩ = .ok 3
    ∧ (Except.ok (2 : ℚ) : Except String ℚ) ≠ .ok 3 := by
  refine ⟨?_, ?_, ?_⟩
  · have h := Entity.get_total_waiting_time_spec ⟨0, some 5, [("A", ⟨0, 2, 5⟩)]⟩ 5 rfl
      (by simp)
    rw [h]; norm_num [waitSum]
  · have h := Entity.get_total_waiting_time_spec
      ⟨0, some 5, (odModify [("A", ⟨0, 2, 5⟩)] "A"
        (fun r => { r with start_service_time := 3 }))⟩ 5 rfl
      (by simp [odModify])
    rw [h]; norm_num [waitSum, odModify]
  · intro hc
    exact absurd (Except.ok.inj hc) (by norm_num)

/-- C5 amended: the statistics are recomputed from the current visit records
and disposal time on every getter call — nothing is cached — so a
modification made between two calls IS reflected by the later call: after
assigning any record `r` under `name`, the getters return the sums over the
modified mapping, and after re-stamping the disposal time the total time is
computed from the new stamp. -/
theorem claim5_recompute_each_call (e : Entity) (d : ℚ)
    (hd : e.disposal_time = some d)
    (hnd : (e.resources_requested.map Prod.fst).Nodup)
    (name : String) (r : VisitRecord) :
    ({ e with resources_requested := odAssign e.resources_requested name r } : Entity).get_total_waiting_time
      = .ok (waitSum (odAssign e.resources_requested name r))
    ∧ ({ e with resources_requested := odAssign e.resources_requested name r } : Entity).get_total_processing_time
      = .ok (procSum (odAssign e.resources_requested name r))
    ∧ ({ e with resources_requested := odAssign e.resources_requested name r } : Entity).get_total_time
      = .ok (d - e.creation_time)
    ∧ ∀ d', ({ e with disposal_time := some d' } : Entity).get_total_time
      = .ok (d' - e.creation_time) := by
  have hd' : ({ e with resources_requested := odAssign e.resources_requested name r } : Entity).disposal_time
      = some d := hd
  have hnd' : (({ e with resources_requested := odAssign e.resources_requested name r } : Entity).resources_requested.map Prod.fst).Nodup :=
    odAssign_nodup e.resources_requested name r hnd
  exact ⟨Entity.get_total_waiting_time_spec _ d hd' hnd',
    Entity.get_total_processing_time_spec _ d hd' hnd',
    Entity.get_total_time_disposed _ d hd',
    fun d' => Entity.get_total_time_disposed _ d' rfl⟩

/-- C5 amended witness: assigning a new record (start time 3) to the
disposed one-visit entity makes the next getter call return the recomputed
waiting time 3. -/
theorem claim5_recompute_each_call_witness :
    ((⟨0, some 5, [("A", ⟨0, 2, 5⟩)]⟩ : Entity).disposal_time = some 5
      ∧ (((⟨0, some 5, [("A", ⟨0, 2, 5⟩)]⟩ : Entity).resources_requested.map Prod.fst).Nodup))
    ∧ ({ (⟨0, some 5, [("A", ⟨0, 2, 5⟩)]⟩ : Entity) with resources_requested :=
          (odAssign [("A", ⟨0, 2, 5⟩)] "A" ⟨0, 3, 5⟩) } : Entity).get_total_waiting_time
        = .ok (waitSum (odAssign [("A", ⟨0, 2, 5⟩)] "A" ⟨0, 3, 5⟩))
    ∧ waitSum (odAssign [("A", ⟨0, 2, 5⟩)] "A" ⟨0, 3, 5⟩) = 3 := by
  refine ⟨⟨rfl, by simp⟩, ?_, by norm_num [waitSum, odAssign]⟩
  exact (claim5_recompute_each_call ⟨0, some 5, [("A", ⟨0, 2, 5⟩)]⟩ 5 rfl (by simp)
    "A" ⟨0, 3, 5⟩).1

/-- C6 counterexample: `dispose()` is not write-once — a second call
silently overwrites the stamp: disposing at time 3 and again at time 7
leaves `disposal_time = 7`, not the first stamp 3. -/
theorem claim6_dispose_overwrites_counterexample :
    (Entity.dispose (⟨0, none, []⟩ : Entity) 3).disposal_time = some 3
    ∧ (Entity.dispose (Entity.dispose (⟨0, none, []⟩ : Entity) 3) 7).disposal_time = some 7
    ∧ some (7 : ℚ) ≠ some (3 : ℚ) := by
  refine ⟨rfl, rfl, ?_⟩
  intro hc
  exact absurd (Option.some_inj.mp hc) (by norm_num)

/-- C6 amended: `dispose()` stamps `disposal_time` with the current time on
every call (so a second call overwrites the first stamp — last write wins),
and `is_disposed()` returns true exactly when `disposal_time` is set. -/
theorem claim6_dispose_stamps (e : Entity) (now : ℚ) :
    (e.dispose now).disposal_time = some now
    ∧ (e.dispose now).is_disposed = true
    ∧ (e.is_disposed = true ↔ e.disposal_time ≠ none) := by
  refine ⟨rfl, rfl, ?_⟩
  simp [Entity.is_disposed, Option.isSome_iff_ne_none]

/-- C6 amended witness at a concrete entity and time. -/
theorem claim6_dispose_stamps_witness :
    ((⟨0, none, []⟩ : Entity).dispose 4).disposal_time = some 4
    ∧ ((⟨0, none, []⟩ : Entity).dispose 4).is_disposed = true
    ∧ ((⟨0, none, []⟩ : Entity).is_disposed = true
        ↔ (⟨0, none, []⟩ : Entity).disposal_time ≠ none) :=
  claim6_dispose_stamps ⟨0, none, []⟩ 4

/-- C8: re-requesting a resource overwrites its visit record — after a full
first visit and a second full visit of the same resource, the record holds
exactly the second visit's three timestamps, no duplicate entry is created,
and the per-resource and aggregate statistics are computed from the second
visit only. -/
theorem claim8_revisit_overwrites (e : Entity) (name : String)
    (t1 s1 f1 t2 s2 f2 d : ℚ) :
    ∃ e1 e2, e.visitResource name t1 s1 f1 = some e1
      ∧ e1.visitResource name t2 s2 f2 = some e2
      ∧ e2.resources_requested.lookup name
          = some { arrival_time := t2, start_service_time := s2, finish_service_time := f2 }
      ∧ e2.resources_requested.map Prod.fst = e1.resources_requested.map Prod.fst
      ∧ e2.get_waiting_time_for_resource name = .ok (s2 - t2)
      ∧ e2.get_processing_time_for_resource name = .ok (f2 - s2)
      ∧ (e.resources_requested = [] →
          (e2.dispose d).get_total_waiting_time = .ok (s2 - t2)
          ∧ (e2.dispose d).get_total_processing_time = .ok (f2 - s2)) := by
  obtain ⟨e1, he1, hc1, hd1, hl1, hk1⟩ := Entity.visitResource_spec e name t1 s1 f1
  obtain ⟨e2, he2, hc2, hd2, hl2, hk2⟩ := Entity.visitResource_spec e1 name t2 s2 f2
  have hmem : name ∈ e1.resources_requested.map Prod.fst :=
    (lookup_isSome_iff_mem _ _).mp (by rw [hl1]; rfl)
  refine ⟨e1, e2, he1, he2, hl2, ?_, ?_, ?_, ?_⟩
  · rw [hk2, odAssign_keys_of_mem _ _ _ hmem]
  · simp [Entity.get_waiting_time_for_resource,
      Entity._calculate_waiting_time_for_resource, hl2]
  · simp [Entity.get_processing_time_for_resource,
      Entity._calculate_processing_time_for_resource, hl2]
  · intro hnil
    have hk1' : e1.resources_requested.map Prod.fst = [name] := by
      rw [hk1, hnil]; rfl
    have hk2' : e2.resources_requested.map Prod.fst = [name] := by
      rw [hk2, odAssign_keys_of_mem _ _ _ hmem, hk1']
    have he2rr : e2.resources_requested
        = [(name, { arrival_time := t2, start_service_time := s2, finish_service_time := f2 })] :=
      eq_singleton_of_keys _ _ _ hk2' hl2
    have hddisp : (e2.dispose d).disposal_time = some d := rfl
    have hnd : ((e2.dispose d).resources_requested.map Prod.fst).Nodup := by
      show (e2.resources_requested.map Prod.fst).Nodup
      rw [hk2']
      exact List.nodup_singleton name
    constructor
    · rw [Entity.get_total_waiting_time_spec (e2.dispose d) d hddisp hnd]
      have : (e2.dispose d).resources_requested = e2.resources_requested := rfl
      rw [this, he2rr]
      norm_num [waitSum]
    · rw [Entity.get_total_processing_time_spec (e2.dispose d) d hddisp hnd]
      have : (e2.dispose d).resources_requested = e2.resources_requested := rfl
      rw [this, he2rr]
      norm_num [procSum]

/-- C8 witness: a fresh entity visits resource "A" at (0, 1, 2), revisits at
(3, 5, 9), is disposed at 10: the surviving record is (3, 5, 9) and the
aggregate waiting and processing times are those of the second visit only. -/
theorem claim8_revisit_overwrites_witness :
    ∃ e1 e2, (⟨0, none, []⟩ : Entity).visitResource "A" 0 1 2 = some e1
      ∧ e1.visitResource "A" 3 5 9 = some e2
      ∧ e2.resources_requested.lookup "A"
          = some { arrival_time := 3, start_service_time := 5, finish_service_time := 9 }
      ∧ (e2.dispose 10).get_total_waiting_time = .ok (5 - 3)
      ∧ (e2.dispose 10).get_total_processing_time = .ok (9 - 5) := by
  obtain ⟨e1, e2, h1, h2, h3, _, _, _, h7⟩ :=
    claim8_revisit_overwrites ⟨0, none, []⟩ "A" 0 1 2 3 5 9 10
  obtain ⟨hw, hp⟩ := h7 rfl
  exact ⟨e1, e2, h1, h2, h3, hw, hp⟩

/-- C9: the source aggregators return, without error, one value per entity
whose disposal time is set, in original creation order (the non-disposed
entities are silently skipped), and the total-times list consists of
`disposal_time - creation_time` of the disposed entities in order. -/
theorem claim9_source_aggregation (s : Source) :
    ∃ l₁ l₂ l₃,
      s.get_total_times = .ok l₁
      ∧ s.get_waiting_times = .ok l₂
      ∧ s.get_processing_times = .ok l₃
      ∧ l₁ = (s.entities.filter (fun e => e.is_disposed)).map
          (fun e => e.disposal_time.getD 0 - e.creation_time)
      ∧ l₁.length = (s.entities.filter (fun e => e.is_disposed)).length
      ∧ l₂.length = (s.entities.filter (fun e => e.is_disposed)).length
      ∧ l₃.length = (s.entities.filter (fun e => e.is_disposed)).length := by
  have hdisp : ∀ e ∈ s.entities.filter (fun e => e.is_disposed),
      e.disposal_time.isSome := by
    intro e he
    have h := (List.mem_filter.mp he).2
    simpa [Entity.is_disposed] using h
  have h1 := mapM_total_times (s.entities.filter (fun e => e.is_disposed)) hdisp
  obtain ⟨l₂, hl₂, hlen₂⟩ := mapM_ok_of_ok (s.entities.filter (fun e => e.is_disposed))
    Entity.get_total_waiting_time
    (fun e he => by
      obtain ⟨d, hd⟩ := Option.isSome_iff_exists.mp (hdisp e he)
      exact Entity.get_total_waiting_time_ok e d hd)
  obtain ⟨l₃, hl₃, hlen₃⟩ := mapM_ok_of_ok (s.entities.filter (fun e => e.is_disposed))
    Entity.get_total_processing_time
    (fun e he => by
      obtain ⟨d, hd⟩ := Option.isSome_iff_exists.mp (hdisp e he)
      exact Entity.get_total_processing_time_ok e d hd)
  refine ⟨(s.entities.filter (fun e => e.is_disposed)).map
      (fun e => e.disposal_time.getD 0 - e.creation_time), l₂, l₃, ?_, ?_, ?_, rfl,
      by simp, hlen₂, hlen₃⟩
  · rw [Source.get_total_times, Source._get_disposed_entities]
    exact h1
  · rw [Source.get_waiting_times, Source._get_disposed_entities]
    exact hl₂
  · rw [Source.get_processing_times, Source._get_disposed_entities]
    exact hl₃

/-- C10: the per-resource getters succeed exactly for resources the entity
has visited — a missing key fails — and for a visited resource they return
the recorded timestamp differences with no disposal-state precondition
(the result is the same with `disposal_time` forced to `None`). -/
theorem claim10_per_resource_lookup (e : Entity) (name : String) :
    ((∃ v, e.get_waiting_time_for_resource name = .ok v)
        ↔ name ∈ e.resources_requested.map Prod.fst)
    ∧ ((∃ v, e.get_processing_time_for_resource name = .ok v)
        ↔ name ∈ e.resources_requested.map Prod.fst)
    ∧ (∀ r, e.resources_requested.lookup name = some r →
        e.get_waiting_time_for_resource name
            = .ok (r.start_service_time - r.arrival_time)
        ∧ e.get_processing_time_for_resource name
            = .ok (r.finish_service_time - r.start_service_time))
    ∧ ({ e with disposal_time := none } : Entity).get_waiting_time_for_resource name
        = e.get_waiting_time_for_resource name
    ∧ ({ e with disposal_time := none } : Entity).get_processing_time_for_resource name
        = e.get_processing_time_for_resource name := by
  refine ⟨?_, ?_, ?_, rfl, rfl⟩
  · rw [← lookup_isSome_iff_mem]
    constructor
    · rintro ⟨v, hv⟩
      cases hlook : e.resources_requested.lookup name with
      | none =>
        rw [Entity.get_waiting_time_for_resource,
          Entity._calculate_waiting_time_for_resource, hlook] at hv
        cases hv
      | some r => rfl
    · intro h
      obtain ⟨r, hr⟩ := Option.isSome_iff_exists.mp h
      exact ⟨r.start_service_time - r.arrival_time,
        by simp [Entity.get_waiting_time_for_resource,
          Entity._calculate_waiting_time_for_resource, hr]⟩
  · rw [← lookup_isSome_iff_mem]
    constructor
    · rintro ⟨v, hv⟩
      cases hlook : e.resources_requested.lookup name with
      | none =>
        rw [Entity.get_processing_time_for_resource,
          Entity._calculate_processing_time_for_resource, hlook] at hv
        cases hv
      | some r => rfl
    · intro h
      obtain ⟨r, hr⟩ := Option.isSome_iff_exists.mp h
      exact ⟨r.finish_service_time - r.start_service_time,
        by simp [Entity.get_processing_time_for_resource,
          Entity._calculate_processing_time_for_resource, hr]⟩
  · intro r hr
    exact ⟨by simp [Entity.get_waiting_time_for_resource,
        Entity._calculate_waiting_time_for_resource, hr],
      by simp [Entity.get_processing_time_for_resource,
        Entity._calculate_processing_time_for_resource, hr]⟩

/-- C10 witness: an un-disposed entity with a single visit to "A" (arrival
1, start 4, finish 6): the waiting-time getter succeeds on "A" with 4 - 1
and fails on the never-visited "B". -/
theorem claim10_per_resource_lookup_witness :
    (∃ v, Entity.get_waiting_time_for_resource ⟨0, none, [("A", ⟨1, 4, 6⟩)]⟩ "A" = .ok v)
    ∧ ¬ (∃ v, Entity.get_waiting_time_for_resource ⟨0, none, [("A", ⟨1, 4, 6⟩)]⟩ "B" = .ok v)
    ∧ Entity.get_waiting_time_for_resource ⟨0, none, [("A", ⟨1, 4, 6⟩)]⟩ "A" = .ok (4 - 1) := by
  have hA := claim10_per_resource_lookup ⟨0, none, [("A", ⟨1, 4, 6⟩)]⟩ "A"
  have hB := claim10_per_resource_lookup ⟨0, none, [("A", ⟨1, 4, 6⟩)]⟩ "B"
  refine ⟨hA.1.mpr (by simp), fun hc => ?_, (hA.2.2.1 ⟨1, 4, 6⟩ (by simp)).1⟩
  have h := hB.1.mp hc
  simp at h
